import Mathlib

/-!
# Verification of the `prometheus_ip_geo` range-indexing and lookup engine

This development embeds the repository's two binaries (`src/cli/src/main.rs`
and `src/geo/src/main.rs`) and the range-index core they call into Lean, and
proves the specified properties about them.

The core library crate (`ip_geo`: line parser, range-index builder, `search`)
is not part of the provided sources; following the specification, those
components are modelled from the spec's own words (§4.1-§4.3, §6-§8) and each
such definition is marked `Modelled from the spec:` in its doc comment.
External effects (file system, TOML parsing, the `location` tool, Wikidata)
are passed in as explicit function parameters, so every definition is a pure,
executable Lean function.
-/

namespace IpGeo

/-- Modelled from the spec: an Address is "an unsigned integer of fixed width:
32 bits for IPv4, 128 bits for IPv6. Ordering is the natural unsigned integer
order." The parser, builder and search only compare addresses (no arithmetic),
so both widths embed faithfully into `Nat` with its natural order. -/
abbrev Address := Nat

/-- Modelled from the spec: a Record is `{ start: Address, end: Address,
value: CountryCode }`; "the index is generic over the payload type", hence the
type parameter `α`. (`end` is a reserved word in Lean, so the field is named
`end_`.) -/
structure Record (α : Type) where
  start : Address
  end_ : Address
  value : α
  deriving DecidableEq, Repr

/-- Modelled from the spec: the per-line failure classification of §4.4/§7:
`InvalidLine` (cannot split into expected fields), `InvalidAddress` (address
literal malformed), `InvalidCode` (country code malformed), `InvertedRange`
(`start > end`). -/
inductive ParseFailure
  | invalidLine
  | invalidAddress
  | invalidCode
  | invertedRange
  deriving DecidableEq, Repr

/-- Strips leading and trailing whitespace from a list of characters
(the character-level equivalent of `String.trim`). -/
def trimChars (cs : List Char) : List Char :=
  ((cs.dropWhile Char.isWhitespace).reverse.dropWhile Char.isWhitespace).reverse

/-- Splits a list of characters on a separator character (the character-level
equivalent of `String.splitOn` with a one-character separator); always returns
at least one (possibly empty) field. -/
def splitOnChar (sep : Char) : List Char → List (List Char)
  | [] => [[]]
  | c :: cs =>
    match splitOnChar sep cs with
    | [] => [[]]
    | f :: rest => if c = sep then [] :: f :: rest else (c :: f) :: rest

/-- Modelled from the spec: the Line Parser of §4.1. "Given one line of text
and a configured comment-marker character, produce either a `Record` or a
classified failure; a blank line or a line whose first non-space character is
the comment marker produces neither" (`none`). The line format is
`start,end,code` (explicit `start,end` pairs, comma separated, as in the §8
concrete scenario). The address-literal syntax of the family and the exact
country-code alphabet are caller-defined, so they are taken as the parameters
`parseAddr` and `validCode`. A line where `start > end` is rejected as
`invertedRange`. -/
def parseLine (marker : Char) (parseAddr : String → Option Address)
    (validCode : String → Bool) (line : String) :
    Option (Except ParseFailure (Record String)) :=
  match trimChars line.data with
  | [] => none
  | c :: cs =>
    if c = marker then none
    else some (
      match splitOnChar ',' (c :: cs) with
      | [sa, sb, code] =>
        match parseAddr ⟨sa⟩, parseAddr ⟨sb⟩ with
        | some a, some b =>
          if validCode ⟨code⟩ then
            if a ≤ b then .ok ⟨a, b, ⟨code⟩⟩ else .error .invertedRange
          else .error .invalidCode
        | _, _ => .error .invalidAddress
      | _ => .error .invalidLine)

/-- Modelled from the spec: the overlap-dropping pass of the Builder (§4.2).
After sorting, "detect duplicate `start` values and overlaps
(`records[i].end >= records[i+1].start`) — ... in tolerant mode, keep the
earlier record and drop the later one". `last` is the most recently kept
record; a record whose `start` is not strictly above `last.end_` conflicts
with it (this covers duplicate starts, since `start ≤ end`) and is dropped. -/
def dropOverlaps (last : Record α) : List (Record α) → List (Record α)
  | [] => []
  | r :: rs =>
    if r.start ≤ last.end_ then dropOverlaps last rs
    else r :: dropOverlaps r rs

/-- Modelled from the spec: the accumulation phase of the Builder (§4.2),
tolerant (default) mode. Per-line failures are reported to the caller and the
offending line skipped ("the build succeeds with whatever valid records
remain"); skip lines (blank/comment) contribute nothing. -/
def parsedRecords (marker : Char) (parseAddr : String → Option Address)
    (validCode : String → Bool) (lines : List String) : List (Record String) :=
  lines.filterMap
    (fun l => (parseLine marker parseAddr validCode l).bind Except.toOption)

/-- Modelled from the spec: "After parsing all lines: sort records by `start`
ascending" (§4.2). -/
def sortedRecords (marker : Char) (parseAddr : String → Option Address)
    (validCode : String → Bool) (lines : List String) : List (Record String) :=
  (parsedRecords marker parseAddr validCode lines).insertionSort
    (fun a b => a.start ≤ b.start)

/-- Modelled from the spec: the Range Index Builder (§4.2), tolerant (default)
mode, on an already-read list of lines: accumulate valid records, sort by
`start`, resolve duplicate starts and overlaps keep-first via `dropOverlaps`. -/
def build_from_lines (marker : Char) (parseAddr : String → Option Address)
    (validCode : String → Bool) (lines : List String) : List (Record String) :=
  match sortedRecords marker parseAddr validCode lines with
  | [] => []
  | r :: rs => r :: dropOverlaps r rs

/-- Modelled from the spec: the auxiliary step of the §4.3 query algorithm,
"finding the greatest index `i` such that `records[i].start <= address`" —
i.e. the last element of the list whose `start` is at most `address`
(`none` when no element qualifies). -/
def lastStartLe (a : Address) : List (Record α) → Option (Record α)
  | [] => none
  | r :: rs =>
    match lastStartLe a rs with
    | some r2 => some r2
    | none => if r.start ≤ a then some r else none

/-- Modelled from the spec: `search(address) -> Option<&Record>` (§4.3).
Find the greatest index `i` with `records[i].start <= address`; "if no such
index exists, or `address > records[i].end`, return absence; otherwise return
`records[i]`". -/
def search (records : List (Record α)) (a : Address) : Option (Record α) :=
  match lastStartLe a records with
  | none => none
  | some r => if r.end_ < a then none else some r

/-- The build-time invariants of §3/§8: every record satisfies
`start ≤ end`, and adjacent records are strictly increasing by `start` and
non-overlapping (`records[i].end < records[i+1].start`). -/
def WellFormed (records : List (Record α)) : Prop :=
  (∀ r ∈ records, r.start ≤ r.end_) ∧
    records.Chain' (fun x y => x.start < y.start ∧ x.end_ < y.start)

/-- Value of a decimal digit character, if it is one. -/
def decimalDigit (c : Char) : Option Nat :=
  if '0' ≤ c ∧ c ≤ '9' then some (c.toNat - '0'.toNat) else none

/-- Accumulator loop of `decimalAddr`. -/
def decimalNatAux (acc : Nat) : List Char → Option Nat
  | [] => some acc
  | c :: cs =>
    match decimalDigit c with
    | some d => decimalNatAux (acc * 10 + d) cs
    | none => none

/-- A concrete decimal address-literal parser; one possible caller-supplied
instantiation of the family-specific `parseAddr` parameter, used in concrete
examples. -/
def decimalAddr (s : String) : Option Address :=
  match s.data with
  | [] => none
  | cs => decimalNatAux 0 cs

/-- A concrete country-code validator (two uppercase ASCII letters, the
observed alphabet); one possible caller-supplied instantiation of the
`validCode` parameter, used in concrete examples. -/
def isCountryCode (s : String) : Bool :=
  s.data.length == 2 && s.data.all fun c => 'A' ≤ c && c ≤ 'Z'

/-- A small concrete database file, used in witnesses. -/
def demoLines : List String :=
  ["10,20,CA", "0,5,US", "# a comment", "", "3,8,ZZ", "30,25,FR"]

/-- A record accepted by the line parser satisfies `start ≤ end`: the parser
rejects inverted ranges. -/
theorem parseLine_ok_le {marker : Char} {parseAddr : String → Option Address}
    {validCode : String → Bool} {line : String} {r : Record String}
    (h : parseLine marker parseAddr validCode line = some (Except.ok r)) :
    r.start ≤ r.end_ := by
  unfold parseLine at h
  split at h
  · exact Option.noConfusion h
  · split at h
    · exact Option.noConfusion h
    · simp only [Option.some.injEq] at h
      split at h
      · split at h
        · split at h
          · split at h
            · cases h
              assumption
            · exact Except.noConfusion h
          · exact Except.noConfusion h
        · exact Except.noConfusion h
      · exact Except.noConfusion h

/-- The overlap-dropping pass only ever keeps records of its input. -/
theorem dropOverlaps_sublist :
    ∀ (l : List (Record α)) (last : Record α),
      List.Sublist (dropOverlaps last l) l
  | [], _ => List.Sublist.slnil
  | r :: rs, last => by
    unfold dropOverlaps
    split
    · exact (dropOverlaps_sublist rs last).trans (List.sublist_cons_self r rs)
    · exact List.Sublist.cons₂ r (dropOverlaps_sublist rs r)

/-- Every record kept by the overlap-dropping pass lies strictly beyond the
previously kept record, and so on down the chain. -/
theorem dropOverlaps_chain :
    ∀ (l : List (Record α)) (last : Record α),
      List.Chain (fun x y => x.end_ < y.start) last (dropOverlaps last l)
  | [], _ => List.Chain.nil
  | r :: rs, last => by
    unfold dropOverlaps
    split
    · exact dropOverlaps_chain rs last
    · next h =>
        exact List.Chain.cons (Nat.lt_of_not_le h) (dropOverlaps_chain rs r)

/-- Strengthening: on a list whose records all satisfy `start ≤ end`, the
non-overlap chain implies the full sortedness-and-non-overlap chain. -/
theorem chain_strengthen :
    ∀ l : List (Record α), (∀ r ∈ l, r.start ≤ r.end_) →
      l.Chain' (fun x y => x.end_ < y.start) →
      l.Chain' (fun x y => x.start < y.start ∧ x.end_ < y.start)
  | [], _, _ => List.chain'_nil
  | [_], _, _ => by simp
  | a :: b :: l, hle, hc => by
    rw [List.chain'_cons] at hc ⊢
    exact ⟨⟨lt_of_le_of_lt (hle a (by simp)) hc.1, hc.1⟩,
      chain_strengthen (b :: l) (fun r hr => hle r (List.mem_cons_of_mem a hr)) hc.2⟩

/-- Every record of a built index is one of the sorted parsed records. -/
theorem mem_sorted_of_mem_build {marker : Char}
    {parseAddr : String → Option Address} {validCode : String → Bool}
    {lines : List String} {r : Record String}
    (h : r ∈ build_from_lines marker parseAddr validCode lines) :
    r ∈ sortedRecords marker parseAddr validCode lines := by
  unfold build_from_lines at h
  split at h
  · exact absurd h (List.not_mem_nil r)
  · next x rs heq =>
    rw [heq]
    rcases List.mem_cons.mp h with rfl | h'
    · exact List.mem_cons_self _ _
    · exact List.mem_cons_of_mem _ ((dropOverlaps_sublist rs x).mem h')

/-- Every record of a built index came out of the line parser as a success. -/
theorem exists_line_of_mem_build {marker : Char}
    {parseAddr : String → Option Address} {validCode : String → Bool}
    {lines : List String} {r : Record String}
    (h : r ∈ build_from_lines marker parseAddr validCode lines) :
    ∃ line ∈ lines, parseLine marker parseAddr validCode line
      = some (Except.ok r) := by
  have h1 := mem_sorted_of_mem_build h
  unfold sortedRecords at h1
  have h2 : r ∈ parsedRecords marker parseAddr validCode lines :=
    ((List.perm_insertionSort _ _).mem_iff).mp h1
  unfold parsedRecords at h2
  obtain ⟨line, hmem, hline⟩ := List.mem_filterMap.mp h2
  refine ⟨line, hmem, ?_⟩
  cases hp : parseLine marker parseAddr validCode line with
  | none => rw [hp] at hline; exact Option.noConfusion hline
  | some e =>
    rw [hp] at hline
    cases e with
    | error err => simp [Except.toOption] at hline
    | ok r' =>
      simp [Except.toOption] at hline
      rw [hline]

/-- The invariants of §3/§8 hold for every successfully built index. -/
theorem build_from_lines_wellFormed (marker : Char)
    (parseAddr : String → Option Address) (validCode : String → Bool)
    (lines : List String) :
    WellFormed (build_from_lines marker parseAddr validCode lines) := by
  have hle : ∀ r ∈ build_from_lines marker parseAddr validCode lines,
      r.start ≤ r.end_ := by
    intro r hr
    obtain ⟨line, _, hline⟩ := exists_line_of_mem_build hr
    exact parseLine_ok_le hline
  refine ⟨hle, chain_strengthen _ hle ?_⟩
  unfold build_from_lines
  split
  · exact List.chain'_nil
  · exact dropOverlaps_chain _ _

/-- Soundness of the greatest-lower-start lookup: the returned record is in
the list and its `start` is at most the queried address. -/
theorem lastStartLe_mem_le {a : Address} :
    ∀ {l : List (Record α)} {r : Record α},
      lastStartLe a l = some r → r ∈ l ∧ r.start ≤ a
  | [], r, h => by simp [lastStartLe] at h
  | x :: rs, r, h => by
    unfold lastStartLe at h
    cases h2 : lastStartLe a rs with
    | some r2 =>
      rw [h2] at h
      injection h with h
      subst h
      have := lastStartLe_mem_le h2
      exact ⟨List.mem_cons_of_mem _ this.1, this.2⟩
    | none =>
      rw [h2] at h
      by_cases hx : x.start ≤ a
      · rw [if_pos hx] at h
        injection h with h
        subst h
        exact ⟨List.mem_cons_self _ _, hx⟩
      · rw [if_neg hx] at h
        exact Option.noConfusion h

/-- Completeness of failure: the lookup returns `none` exactly when every
record starts strictly above the queried address. -/
theorem lastStartLe_eq_none_iff {a : Address} :
    ∀ l : List (Record α),
      lastStartLe a l = none ↔ ∀ r ∈ l, a < r.start
  | [] => by simp [lastStartLe]
  | x :: rs => by
    unfold lastStartLe
    cases h2 : lastStartLe a rs with
    | some r2 =>
      have hmem := lastStartLe_mem_le h2
      constructor
      · intro h; exact Option.noConfusion h
      · intro hall
        exact absurd hmem.2
          (Nat.not_le.mpr (hall r2 (List.mem_cons_of_mem _ hmem.1)))
    | none =>
      have hall := (lastStartLe_eq_none_iff rs).mp h2
      by_cases hx : x.start ≤ a
      · rw [if_pos hx]
        constructor
        · intro h; exact Option.noConfusion h
        · intro hall2
          exact absurd hx (Nat.not_le.mpr (hall2 x (List.mem_cons_self _ _)))
      · rw [if_neg hx]
        constructor
        · intro _ r hr
          rcases List.mem_cons.mp hr with rfl | hr'
          · exact Nat.not_le.mp hx
          · exact hall r hr'
        · intro _; rfl

/-- The strict sortedness-and-non-overlap relation is transitive. -/
instance : IsTrans (Record α) (fun x y => x.start < y.start ∧ x.end_ < y.start) :=
  ⟨fun _ _ _ hab hbc => ⟨lt_trans hab.1 hbc.1, lt_trans hab.2 hbc.1⟩⟩

/-- In a well-formed index, every record after the head starts strictly
beyond the head's `end`. -/
theorem wf_head_lt {x : Record α} {rs : List (Record α)}
    (h : WellFormed (x :: rs)) : ∀ y ∈ rs, x.end_ < y.start := by
  have hp := (List.chain'_iff_pairwise).mp h.2
  intro y hy
  exact (List.rel_of_pairwise_cons hp hy).2

/-- Well-formedness is preserved by dropping the head. -/
theorem wf_tail {x : Record α} {rs : List (Record α)}
    (h : WellFormed (x :: rs)) : WellFormed rs :=
  ⟨fun r hr => h.1 r (List.mem_cons_of_mem _ hr), h.2.tail⟩

/-- In a well-formed index, a record containing the queried address is the one
found by the greatest-lower-start lookup. -/
theorem lastStartLe_of_contains :
    ∀ {l : List (Record α)} {r : Record α} {a : Address},
      WellFormed l → r ∈ l → r.start ≤ a → a ≤ r.end_ →
      lastStartLe a l = some r
  | [], r, _, _, hmem, _, _ => absurd hmem (List.not_mem_nil r)
  | x :: rs, r, a, hwf, hmem, h1, h2 => by
    unfold lastStartLe
    rcases List.mem_cons.mp hmem with rfl | hmem'
    · have hnone : lastStartLe a rs = none :=
        (lastStartLe_eq_none_iff rs).mpr
          (fun y hy => lt_of_le_of_lt h2 (wf_head_lt hwf y hy))
      rw [hnone, if_pos h1]
    · rw [lastStartLe_of_contains (wf_tail hwf) hmem' h1 h2]

/-- Containment correctness, positive half (§8): in a well-formed index, a
record containing the queried address is returned by `search`. -/
theorem search_eq_some_of_mem {l : List (Record α)} {r : Record α}
    {a : Address} (hwf : WellFormed l) (hmem : r ∈ l) (h1 : r.start ≤ a)
    (h2 : a ≤ r.end_) : search l a = some r := by
  unfold search
  rw [lastStartLe_of_contains hwf hmem h1 h2]
  show (if r.end_ < a then none else some r) = some r
  rw [if_neg (Nat.not_lt.mpr h2)]

/-- Containment correctness, negative half (§8): if no record's range contains
the queried address, `search` returns absence (no well-formedness needed). -/
theorem search_eq_none_of_not_contains {l : List (Record α)} {a : Address}
    (h : ∀ r ∈ l, ¬ (r.start ≤ a ∧ a ≤ r.end_)) : search l a = none := by
  unfold search
  cases hl : lastStartLe a l with
  | none => rfl
  | some r =>
    have hm := lastStartLe_mem_le hl
    have hnc := h r hm.1
    have hlt : r.end_ < a := by
      rcases Nat.lt_or_ge r.end_ a with hlt | hge
      · exact hlt
      · exact absurd ⟨hm.2, hge⟩ hnc
    show (if r.end_ < a then none else some r) = none
    rw [if_pos hlt]

/-- **C1**: for every successfully built range index and every address `a`:
a record `r` of the index with `r.start ≤ a ≤ r.end` is returned by
`search a`; in particular `search r.start = r` and `search r.end = r`
(bounds inclusive at both ends); if no record's range contains `a`, `search a`
returns absence; and on the empty index every query returns absence. -/
theorem C1_search_correct (marker : Char)
    (parseAddr : String → Option Address) (validCode : String → Bool)
    (lines : List String) (a : Address) :
    (∀ r ∈ build_from_lines marker parseAddr validCode lines,
        r.start ≤ a → a ≤ r.end_ →
        search (build_from_lines marker parseAddr validCode lines) a
          = some r) ∧
    (∀ r ∈ build_from_lines marker parseAddr validCode lines,
        search (build_from_lines marker parseAddr validCode lines) r.start
            = some r ∧
          search (build_from_lines marker parseAddr validCode lines) r.end_
            = some r) ∧
    ((∀ r ∈ build_from_lines marker parseAddr validCode lines,
        ¬ (r.start ≤ a ∧ a ≤ r.end_)) →
      search (build_from_lines marker parseAddr validCode lines) a = none) ∧
    (∀ b : Address, search ([] : List (Record String)) b = none) := by
  have hwf := build_from_lines_wellFormed marker parseAddr validCode lines
  refine ⟨?_, ?_, ?_, ?_⟩
  · intro r hr h1 h2
    exact search_eq_some_of_mem hwf hr h1 h2
  · intro r hr
    exact ⟨search_eq_some_of_mem hwf hr (le_refl _) (hwf.1 r hr),
      search_eq_some_of_mem hwf hr (hwf.1 r hr) (le_refl _)⟩
  · intro h
    exact search_eq_none_of_not_contains h
  · intro b
    exact search_eq_none_of_not_contains (by simp)

/-- Witness for C1 on a concrete database: the US record contains address 3,
the boundaries of the CA record are inclusive, and address 7 (outside every
range after the overlapping ZZ record was dropped) yields absence. -/
theorem C1_search_correct_witness :
    search (build_from_lines '#' decimalAddr isCountryCode demoLines) 3
        = some ⟨0, 5, "US"⟩ ∧
      search (build_from_lines '#' decimalAddr isCountryCode demoLines) 10
        = some ⟨10, 20, "CA"⟩ ∧
      search (build_from_lines '#' decimalAddr isCountryCode demoLines) 20
        = some ⟨10, 20, "CA"⟩ ∧
      search (build_from_lines '#' decimalAddr isCountryCode demoLines) 7
        = none := by
  refine ⟨(C1_search_correct '#' decimalAddr isCountryCode demoLines 3).1
      ⟨0, 5, "US"⟩ (by decide) (by decide) (by decide),
    ((C1_search_correct '#' decimalAddr isCountryCode demoLines 10).2.1
      ⟨10, 20, "CA"⟩ (by decide)).1,
    ((C1_search_correct '#' decimalAddr isCountryCode demoLines 20).2.1
      ⟨10, 20, "CA"⟩ (by decide)).2,
    (C1_search_correct '#' decimalAddr isCountryCode demoLines 7).2.2.1
      (by decide)⟩

/-- **C2**: every record of a successfully built range index satisfies
`start ≤ end`, and every adjacent pair is strictly increasing by `start`
(no duplicate starts) and strictly non-overlapping
(`records[i].end < records[i+1].start`). -/
theorem C2_build_invariants (marker : Char)
    (parseAddr : String → Option Address) (validCode : String → Bool)
    (lines : List String) :
    (∀ r ∈ build_from_lines marker parseAddr validCode lines,
        r.start ≤ r.end_) ∧
      (build_from_lines marker parseAddr validCode lines).Chain'
        (fun x y => x.start < y.start ∧ x.end_ < y.start) :=
  build_from_lines_wellFormed marker parseAddr validCode lines

/-- Witness for C2 on a concrete database containing an overlapping record, a
comment, a blank line and an inverted range: the built index is the two
records and they satisfy the invariants. -/
theorem C2_build_invariants_witness :
    (⟨0, 5, "US"⟩ : Record String)
        ∈ build_from_lines '#' decimalAddr isCountryCode demoLines ∧
      (0 : Address) ≤ 5 ∧
      (build_from_lines '#' decimalAddr isCountryCode demoLines).Chain'
        (fun x y => x.start < y.start ∧ x.end_ < y.start) := by
  refine ⟨by decide,
    (C2_build_invariants '#' decimalAddr isCountryCode demoLines).1
      ⟨0, 5, "US"⟩ (by decide),
    (C2_build_invariants '#' decimalAddr isCountryCode demoLines).2⟩

/-! ## The CLI layer (`src/cli/src/main.rs`)

The CLI binary parses command-line arguments with clap, merges them with a
TOML configuration file and built-in defaults in `get_config`, and calls the
core entry points `parse_ipv4_file` / `parse_ipv6_file`. File-system access
(`fs::read_to_string`), TOML deserialization (`toml::from_str`) and the
platform-dependent default config path (`dirs::config_dir()`-based
`get_default_config_path`) are external effects, passed in as the parameters
`readFile`, `tomlParse` and `default_config_path`. -/

/-- A file-system path (`Box<Path>` in the source); only ever passed around,
so a plain string is a faithful carrier. -/
abbrev Path := String

/-- Carrier for `std::net::Ipv4Addr` values; only ever stored and printed by
the CLI, never computed with. -/
abbrev Ipv4Addr := Nat

/-- Carrier for `std::net::Ipv6Addr` values; only ever stored by the CLI. -/
abbrev Ipv6Addr := Nat

/-- Opaque carrier for `toml::de::Error` values. -/
abbrev TomlError := String

/-- The `Arguments` struct of `src/cli/src/main.rs` (lines 38-84): every
option is an `Option`, absent when neither the command line nor the config
file supplied it. `port` is a `u16`; the CLI only stores and compares it
(no arithmetic), so `Nat` is a faithful carrier. -/
structure Arguments where
  config_path : Option Path
  ipv4_addr : Option Ipv4Addr
  ipv4_path : Option Path
  ipv4_len : Option Nat
  ipv4_comment : Option Char
  ipv6_addr : Option Ipv6Addr
  ipv6_path : Option Path
  ipv6_len : Option Nat
  ipv6_comment : Option Char
  server : Option Bool
  port : Option Nat
  deriving DecidableEq, Repr

/-- `get_config_file_arguments` (`src/cli/src/main.rs` lines 160-168): read
the file at the command-line config path (or the default config path), `None`
if reading fails, otherwise the TOML parse result. -/
def get_config_file_arguments (readFile : Path → Option String)
    (tomlParse : String → Except TomlError Arguments)
    (default_config_path : Path) (arguments : Arguments) :
    Option (Except TomlError Arguments) :=
  let config_path := arguments.config_path.getD default_config_path
  (readFile config_path).map tomlParse

/-- The merge step of `get_config` (`src/cli/src/main.rs` lines 100-157), as
a function of the already-extracted config-file layer `from_config`. Each
line mirrors one `let` of the source, including the source's omission of the
`from_config` layer for `ipv4_path` (lines 106-108). -/
def get_config_merge (from_config : Option Arguments) (arguments : Arguments)
    (default_config_path : Path) : Arguments :=
  let config := (arguments.config_path.orElse
    (fun _ => from_config.bind (fun v => v.config_path))).getD
      default_config_path
  let ipv4_path := arguments.ipv4_path.getD "/usr/share/tor/geoip"
  let ipv4_len := (arguments.ipv4_len.orElse
    (fun _ => from_config.bind (fun v => v.ipv4_len))).getD 200000
  let ipv4_comment := (arguments.ipv4_comment.orElse
    (fun _ => from_config.bind (fun v => v.ipv4_comment))).getD '#'
  let ipv6_path := (arguments.ipv6_path.orElse
    (fun _ => from_config.bind (fun v => v.ipv6_path))).getD
      "/usr/share/tor/geoip6"
  let ipv6_len := (arguments.ipv6_len.orElse
    (fun _ => from_config.bind (fun v => v.ipv6_len))).getD 60000
  let ipv6_comment := (arguments.ipv6_comment.orElse
    (fun _ => from_config.bind (fun v => v.ipv6_comment))).getD '#'
  let server := (arguments.server.orElse
    (fun _ => from_config.bind (fun v => v.server))).getD false
  let port := (arguments.port.orElse
    (fun _ => from_config.bind (fun v => v.port))).getD 26000
  { config_path := some config
    ipv4_addr := arguments.ipv4_addr
    ipv4_path := some ipv4_path
    ipv4_len := some ipv4_len
    ipv4_comment := some ipv4_comment
    ipv6_addr := arguments.ipv6_addr
    ipv6_path := some ipv6_path
    ipv6_len := some ipv6_len
    ipv6_comment := some ipv6_comment
    server := some server
    port := some port }

/-- `get_config` (`src/cli/src/main.rs` lines 97-158): extract the config-file
layer (`.and_then(|v| v.ok())` discards both a missing file and a TOML parse
error), then merge command line, file and defaults. -/
def get_config (readFile : Path → Option String)
    (tomlParse : String → Except TomlError Arguments)
    (default_config_path : Path) (arguments : Arguments) : Arguments :=
  get_config_merge
    ((get_config_file_arguments readFile tomlParse default_config_path
      arguments).bind Except.toOption)
    arguments default_config_path

/-- Rust's `Option::unwrap`. After `get_config` every unwrapped field is
`Some` (theorem `C8_get_config_frame`), so the `default` fallback standing in
for the panic never occurs on the program's paths. -/
def unwrapOr [Inhabited α] (o : Option α) : α :=
  o.getD default

/-- The argument pair `main` passes to the core IPv4 entry point:
`parse_ipv4_file(arguments.ipv4_path.unwrap(), arguments.ipv4_len.unwrap())`
(`src/cli/src/main.rs` line 15). -/
def main_parse_ipv4_args (readFile : Path → Option String)
    (tomlParse : String → Except TomlError Arguments)
    (default_config_path : Path) (cmdline : Arguments) : Path × Nat :=
  let arguments := get_config readFile tomlParse default_config_path cmdline
  (unwrapOr arguments.ipv4_path, unwrapOr arguments.ipv4_len)

/-- The argument pair `main` passes to the core IPv6 entry point
(`src/cli/src/main.rs` line 21). -/
def main_parse_ipv6_args (readFile : Path → Option String)
    (tomlParse : String → Except TomlError Arguments)
    (default_config_path : Path) (cmdline : Arguments) : Path × Nat :=
  let arguments := get_config readFile tomlParse default_config_path cmdline
  (unwrapOr arguments.ipv6_path, unwrapOr arguments.ipv6_len)

/-- The observable behaviour of `main` (`src/cli/src/main.rs` lines 12-36):
it prints every record of `parse_ipv4_file(ipv4_path, ipv4_len)`, every
record of `parse_ipv6_file(ipv6_path, ipv6_len)`, and the input IPv4 address,
and nothing else. The core parsers are the CLI's collaborators, so they are
parameters; the result triple determines everything `main` prints. -/
def main_run (parse_ipv4_file : Path → Nat → List α)
    (parse_ipv6_file : Path → Nat → List β)
    (readFile : Path → Option String)
    (tomlParse : String → Except TomlError Arguments)
    (default_config_path : Path) (cmdline : Arguments) :
    List α × List β × Option Ipv4Addr :=
  let arguments := get_config readFile tomlParse default_config_path cmdline
  (parse_ipv4_file (unwrapOr arguments.ipv4_path)
      (unwrapOr arguments.ipv4_len),
    parse_ipv6_file (unwrapOr arguments.ipv6_path)
      (unwrapOr arguments.ipv6_len),
    arguments.ipv4_addr)

/-- A command line supplying no option at all. -/
def noArgs : Arguments :=
  { config_path := none, ipv4_addr := none, ipv4_path := none
    ipv4_len := none, ipv4_comment := none, ipv6_addr := none
    ipv6_path := none, ipv6_len := none, ipv6_comment := none
    server := none, port := none }

/-- A config-file layer supplying both database paths. -/
def pathsFileArgs : Arguments :=
  { noArgs with ipv4_path := some "/fileconf/geoip"
                ipv6_path := some "/fileconf/geoip6" }

/-- A file system whose every file reads as the one-byte string "x". -/
def constReadFile : Path → Option String := fun _ => some "x"

/-- A file system on which every read fails. -/
def failReadFile : Path → Option String := fun _ => none

/-- A TOML parser that always yields `pathsFileArgs`. -/
def pathsTomlParse : String → Except TomlError Arguments :=
  fun _ => Except.ok pathsFileArgs

/-- A TOML parser that always fails. -/
def failTomlParse : String → Except TomlError Arguments :=
  fun _ => Except.error "expected an equals, found an identifier"

/-- **C3** (failing input for the claimed uniform three-layer precedence):
with an empty command line and a readable config file supplying both database
paths, `get_config` takes `ipv6_path` (and every other option) from the file
layer, but for `ipv4_path` it ignores the file layer and falls through to the
built-in default `/usr/share/tor/geoip` — the source merges
`arguments.ipv4_path` directly with the default, skipping `from_config`
(`src/cli/src/main.rs` lines 106-108), unlike every sibling option. -/
theorem C3_ipv4_path_skips_config_file :
    (get_config constReadFile pathsTomlParse "/home/u/.config/ip_geo.toml"
        noArgs).ipv4_path = some "/usr/share/tor/geoip" ∧
      (get_config constReadFile pathsTomlParse "/home/u/.config/ip_geo.toml"
        noArgs).ipv6_path = some "/fileconf/geoip6" :=
  ⟨rfl, rfl⟩

/-- **C8**: `get_config` returns the command-line `ipv4_addr` and `ipv6_addr`
unchanged (it never consults the config-file layer for them), and every other
field of its result is `Some`. -/
theorem C8_get_config_frame (readFile : Path → Option String)
    (tomlParse : String → Except TomlError Arguments)
    (default_config_path : Path) (arguments : Arguments) :
    (get_config readFile tomlParse default_config_path arguments).ipv4_addr
        = arguments.ipv4_addr ∧
      (get_config readFile tomlParse default_config_path arguments).ipv6_addr
        = arguments.ipv6_addr ∧
      (get_config readFile tomlParse default_config_path
        arguments).config_path.isSome = true ∧
      (get_config readFile tomlParse default_config_path
        arguments).ipv4_path.isSome = true ∧
      (get_config readFile tomlParse default_config_path
        arguments).ipv4_len.isSome = true ∧
      (get_config readFile tomlParse default_config_path
        arguments).ipv4_comment.isSome = true ∧
      (get_config readFile tomlParse default_config_path
        arguments).ipv6_path.isSome = true ∧
      (get_config readFile tomlParse default_config_path
        arguments).ipv6_len.isSome = true ∧
      (get_config readFile tomlParse default_config_path
        arguments).ipv6_comment.isSome = true ∧
      (get_config readFile tomlParse default_config_path
        arguments).server.isSome = true ∧
      (get_config readFile tomlParse default_config_path
        arguments).port.isSome = true :=
  ⟨rfl, rfl, rfl, rfl, rfl, rfl, rfl, rfl, rfl, rfl, rfl⟩

/-- **C9**: an unreadable config file makes `get_config_file_arguments`
return `None`; a readable file that fails TOML parsing makes it return
`Some(Err)`; in both cases `get_config` behaves exactly as with no config
file at all (the file layer is `none` in the merge), so config-file problems
never abort or propagate. -/
theorem C9_config_file_errors_tolerated (readFile : Path → Option String)
    (tomlParse : String → Except TomlError Arguments)
    (default_config_path : Path) (arguments : Arguments) :
    (readFile (arguments.config_path.getD default_config_path) = none →
      get_config_file_arguments readFile tomlParse default_config_path
          arguments = none ∧
        get_config readFile tomlParse default_config_path arguments
          = get_config_merge none arguments default_config_path) ∧
    (∀ (s : String) (e : TomlError),
      readFile (arguments.config_path.getD default_config_path) = some s →
      tomlParse s = Except.error e →
      get_config_file_arguments readFile tomlParse default_config_path
          arguments = some (Except.error e) ∧
        get_config readFile tomlParse default_config_path arguments
          = get_config_merge none arguments default_config_path) := by
  constructor
  · intro h
    have h1 : get_config_file_arguments readFile tomlParse
        default_config_path arguments = none := by
      show (readFile (arguments.config_path.getD default_config_path)).map
        tomlParse = none
      rw [h]
      rfl
    refine ⟨h1, ?_⟩
    unfold get_config
    rw [h1]
    rfl
  · intro s e hs he
    have h1 : get_config_file_arguments readFile tomlParse
        default_config_path arguments = some (Except.error e) := by
      show (readFile (arguments.config_path.getD default_config_path)).map
        tomlParse = some (Except.error e)
      rw [hs]
      show some (tomlParse s) = some (Except.error e)
      rw [he]
    refine ⟨h1, ?_⟩
    unfold get_config
    rw [h1]
    rfl

/-- Witness for C9: with a failing file system the config-file layer is
absent, and with a readable file whose contents fail TOML parsing the layer
is a reported error; in both cases `get_config` equals the no-config-file
merge. -/
theorem C9_config_file_errors_tolerated_witness :
    (get_config_file_arguments failReadFile failTomlParse
        "/home/u/.config/ip_geo.toml" noArgs = none ∧
      get_config failReadFile failTomlParse "/home/u/.config/ip_geo.toml"
          noArgs
        = get_config_merge none noArgs "/home/u/.config/ip_geo.toml") ∧
    (get_config_file_arguments constReadFile failTomlParse
        "/home/u/.config/ip_geo.toml" noArgs
        = some (Except.error
            "expected an equals, found an identifier") ∧
      get_config constReadFile failTomlParse "/home/u/.config/ip_geo.toml"
          noArgs
        = get_config_merge none noArgs "/home/u/.config/ip_geo.toml") :=
  ⟨(C9_config_file_errors_tolerated failReadFile failTomlParse
      "/home/u/.config/ip_geo.toml" noArgs).1 rfl,
    (C9_config_file_errors_tolerated constReadFile failTomlParse
      "/home/u/.config/ip_geo.toml" noArgs).2 "x"
      "expected an equals, found an identifier" rfl rfl⟩

/-- A command line configuring `#` as both comment markers. -/
def hashCommentArgs : Arguments :=
  { noArgs with ipv4_comment := some '#', ipv6_comment := some '#' }

/-- A command line configuring `;` as both comment markers. -/
def semiCommentArgs : Arguments :=
  { noArgs with ipv4_comment := some ';', ipv6_comment := some ';' }

/-- **C4** (counterexample): the comment-marker character is not among the
parameters `main` passes to the core build entry points: two command lines
whose effective comment markers differ (`#` vs `;`) produce identical
argument pairs for `parse_ipv4_file` and for `parse_ipv6_file` — the call
sites (`src/cli/src/main.rs` lines 15 and 21) pass only the path and the
length. -/
theorem C4_comment_marker_not_passed :
    (get_config failReadFile failTomlParse "/d" hashCommentArgs).ipv4_comment
        ≠ (get_config failReadFile failTomlParse "/d"
          semiCommentArgs).ipv4_comment ∧
      (get_config failReadFile failTomlParse "/d"
          hashCommentArgs).ipv6_comment
        ≠ (get_config failReadFile failTomlParse "/d"
          semiCommentArgs).ipv6_comment ∧
      main_parse_ipv4_args failReadFile failTomlParse "/d" hashCommentArgs
        = main_parse_ipv4_args failReadFile failTomlParse "/d"
          semiCommentArgs ∧
      main_parse_ipv6_args failReadFile failTomlParse "/d" hashCommentArgs
        = main_parse_ipv6_args failReadFile failTomlParse "/d"
          semiCommentArgs :=
  ⟨by decide, by decide, rfl, rfl⟩

/-- Two command lines agreeing on every option except the two comment
markers. -/
def AgreeExceptComments (x y : Arguments) : Prop :=
  x.config_path = y.config_path ∧ x.ipv4_addr = y.ipv4_addr ∧
    x.ipv4_path = y.ipv4_path ∧ x.ipv4_len = y.ipv4_len ∧
    x.ipv6_addr = y.ipv6_addr ∧ x.ipv6_path = y.ipv6_path ∧
    x.ipv6_len = y.ipv6_len ∧ x.server = y.server ∧ x.port = y.port

/-- **C4** (amended): for each address family the caller passes the injected
file path and expected-entry-count to the core build entry point — a
command-line path and length flow through unchanged — but the comment-marker
character, though configured, is not passed: the arguments of both calls are
unchanged under any change of the comment markers. -/
theorem C4_path_and_len_passed (readFile : Path → Option String)
    (tomlParse : String → Except TomlError Arguments)
    (default_config_path : Path) :
    (∀ (c : Arguments) (p : Path) (n : Nat),
      c.ipv4_path = some p → c.ipv4_len = some n →
      main_parse_ipv4_args readFile tomlParse default_config_path c
        = (p, n)) ∧
    (∀ (c : Arguments) (p : Path) (n : Nat),
      c.ipv6_path = some p → c.ipv6_len = some n →
      main_parse_ipv6_args readFile tomlParse default_config_path c
        = (p, n)) ∧
    (∀ x y : Arguments, AgreeExceptComments x y →
      main_parse_ipv4_args readFile tomlParse default_config_path x
          = main_parse_ipv4_args readFile tomlParse default_config_path y ∧
        main_parse_ipv6_args readFile tomlParse default_config_path x
          = main_parse_ipv6_args readFile tomlParse default_config_path y) := by
  refine ⟨?_, ?_, ?_⟩
  · intro c p n hp hn
    simp [main_parse_ipv4_args, get_config, get_config_merge, unwrapOr,
      Option.orElse, hp, hn]
  · intro c p n hp hn
    simp [main_parse_ipv6_args, get_config, get_config_merge, unwrapOr,
      Option.orElse, hp, hn]
  · intro x y h
    obtain ⟨h1, h2, h3, h4, h5, h6, h7, h8, h9⟩ := h
    cases x
    cases y
    simp only at h1 h2 h3 h4 h5 h6 h7 h8 h9
    subst h1 h2 h3 h4 h5 h6 h7 h8 h9
    exact ⟨rfl, rfl⟩

/-- Witness for C4 (amended): a command line giving explicit paths and
lengths produces exactly those call arguments, and flipping the comment
markers leaves both calls unchanged. -/
theorem C4_path_and_len_passed_witness :
    main_parse_ipv4_args failReadFile failTomlParse "/d"
        { noArgs with ipv4_path := some "/tmp/geoip", ipv4_len := some 7 }
      = ("/tmp/geoip", 7) ∧
    main_parse_ipv6_args failReadFile failTomlParse "/d"
        { noArgs with ipv6_path := some "/tmp/geoip6", ipv6_len := some 9 }
      = ("/tmp/geoip6", 9) ∧
    main_parse_ipv4_args failReadFile failTomlParse "/d" hashCommentArgs
      = main_parse_ipv4_args failReadFile failTomlParse "/d"
        semiCommentArgs :=
  ⟨(C4_path_and_len_passed failReadFile failTomlParse "/d").1
      { noArgs with ipv4_path := some "/tmp/geoip", ipv4_len := some 7 }
      "/tmp/geoip" 7 rfl rfl,
    (C4_path_and_len_passed failReadFile failTomlParse "/d").2.1
      { noArgs with ipv6_path := some "/tmp/geoip6", ipv6_len := some 9 }
      "/tmp/geoip6" 9 rfl rfl,
    ((C4_path_and_len_passed failReadFile failTomlParse "/d").2.2
      hashCommentArgs semiCommentArgs
      ⟨rfl, rfl, rfl, rfl, rfl, rfl, rfl, rfl, rfl⟩).1⟩

/-- Two command lines agreeing on every option except `server` and `port`. -/
def AgreeExceptServerPort (x y : Arguments) : Prop :=
  x.config_path = y.config_path ∧ x.ipv4_addr = y.ipv4_addr ∧
    x.ipv4_path = y.ipv4_path ∧ x.ipv4_len = y.ipv4_len ∧
    x.ipv4_comment = y.ipv4_comment ∧ x.ipv6_addr = y.ipv6_addr ∧
    x.ipv6_path = y.ipv6_path ∧ x.ipv6_len = y.ipv6_len ∧
    x.ipv6_comment = y.ipv6_comment

/-- **C5**: two runs whose configurations differ only in the `server` and
`port` options have identical observable behaviour — the same parses are
performed and the same output triple is produced, whatever the core parsers
do; the server mode is a configuration placeholder `main` never reads. -/
theorem C5_server_port_immaterial {α β : Type}
    (parse_ipv4_file : Path → Nat → List α)
    (parse_ipv6_file : Path → Nat → List β)
    (readFile : Path → Option String)
    (tomlParse : String → Except TomlError Arguments)
    (default_config_path : Path) (x y : Arguments)
    (h : AgreeExceptServerPort x y) :
    main_run parse_ipv4_file parse_ipv6_file readFile tomlParse
        default_config_path x
      = main_run parse_ipv4_file parse_ipv6_file readFile tomlParse
        default_config_path y := by
  obtain ⟨h1, h2, h3, h4, h5, h6, h7, h8, h9⟩ := h
  cases x
  cases y
  simp only at h1 h2 h3 h4 h5 h6 h7 h8 h9
  subst h1 h2 h3 h4 h5 h6 h7 h8 h9
  rfl

/-- A stand-in core parser recording exactly the arguments it was given. -/
def echoParse : Path → Nat → List (Path × Nat) :=
  fun p n => [(p, n)]

/-- Witness for C5: a run with `--server`/`--port` set behaves identically
to one without them. -/
theorem C5_server_port_immaterial_witness :
    main_run echoParse echoParse failReadFile failTomlParse "/d" noArgs
      = main_run echoParse echoParse failReadFile failTomlParse "/d"
        { noArgs with server := some true, port := some 8080 } :=
  C5_server_port_immaterial echoParse echoParse failReadFile failTomlParse
    "/d" noArgs { noArgs with server := some true, port := some 8080 }
    ⟨rfl, rfl, rfl, rfl, rfl, rfl, rfl, rfl, rfl⟩

/-! ## The catalog generator (`src/geo/src/main.rs`)

The one-time generator shells out to `location(8)` and queries Wikidata, then
prints the Country Catalog as Rust source. The shell (`call`) and the two
Wikidata lookups live outside the pure logic and are passed in as parameters:
`call`'s result is an `Except` of output lines, and the Wikidata coordinate
lookups are oracle functions. The `country` and `wikidata` modules are not
among the provided sources; the definitions taken from them are marked
`Modelled from the spec:`. -/

/-- The `Error` enum of `src/geo/src/main.rs` (lines 28-71). Payloads of
wrapped foreign errors are carried as their display strings. -/
inductive GeoError
  | io : String → GeoError
  | strFromUtf8 : String → GeoError
  | invalidCountryLine : String → GeoError
  | invalidCode : String → GeoError
  | outOfBounds : GeoError
  | urlSplit : GeoError
  | wiki : String → GeoError
  | iter : GeoError
  | invalidObject : GeoError
  | invalidArray : GeoError
  | invalidString : GeoError
  | invalidPoint : GeoError
  | missingResults : GeoError
  | missingBindings : GeoError
  deriving DecidableEq, Repr

/-- `get_location_version` (`src/geo/src/main.rs` lines 208-212) as a function
of the result of `call("location --version")`: propagate a failed call,
otherwise the first output line, or `Error::OutOfBounds` when there is none
(`lines.first().ok_or(Error::OutOfBounds).cloned()`). -/
def get_location_version (callResult : Except GeoError (List String)) :
    Except GeoError String :=
  match callResult with
  | .error e => .error e
  | .ok lines =>
    match lines.head? with
    | none => .error .outOfBounds
    | some first => .ok first

/-- **C6**: on a successful version command, `get_location_version` returns
`Error::OutOfBounds` exactly when the command produced zero output lines, and
otherwise returns `Ok` with the first output line (a failed `call` propagates
its own error instead). -/
theorem C6_out_of_bounds_iff_no_lines (lines : List String) :
    (get_location_version (Except.ok lines)
        = Except.error GeoError.outOfBounds ↔ lines = []) ∧
      (∀ (first : String) (rest : List String), lines = first :: rest →
        get_location_version (Except.ok lines) = Except.ok first) ∧
      (∀ e : GeoError, get_location_version (Except.error e)
        = Except.error e) := by
  refine ⟨?_, ?_, fun _ => rfl⟩
  · cases lines with
    | nil => simp [get_location_version]
    | cons a rest => simp [get_location_version]
  · intro first rest h
    subst h
    rfl

/-- Witness for C6: an empty output is the out-of-bounds defect signal; a
normal `location --version` output yields its first line. -/
theorem C6_out_of_bounds_iff_no_lines_witness :
    get_location_version (Except.ok ([] : List String))
        = Except.error GeoError.outOfBounds ∧
      get_location_version (Except.ok ["location 0.9.17", "extra"])
        = Except.ok "location 0.9.17" :=
  ⟨(C6_out_of_bounds_iff_no_lines []).1.mpr rfl,
    (C6_out_of_bounds_iff_no_lines ["location 0.9.17", "extra"]).2.1
      "location 0.9.17" ["extra"] rfl⟩

/-- A country code paired with a display name, as parsed from one line of
`location list-countries --show-name` (`CountryPair` of the missing
`country` module; constructed in `main` as `CountryPair::new(code, name)`). -/
structure CountryPair where
  code : String
  name : String
  deriving DecidableEq, Repr

/-- One entry of the generated Country Catalog: the `Country` struct printed
by the generator — `{ name, code, coordinates }`. The `f64` coordinates are
only ever constructed and printed, never computed with, and the literals that
occur are exactly representable, so a pair of rationals is a faithful
carrier. -/
structure Country where
  name : String
  code : String
  coordinates : Rat × Rat
  deriving DecidableEq, Repr

/-- Modelled from the spec: `Country::new(code, name, coordinates)` of the
missing `country` module constructs a catalog entry from its parts — the
Catalog is "a static mapping from country code to `{ display name,
coordinates }`" (§6), and the call sites pass code first and name second. -/
def Country.new (code name : String) (coordinates : Rat × Rat) : Country :=
  ⟨name, code, coordinates⟩

/-- Modelled from the spec: `Country::from_pair` of the missing `country`
module builds the catalog entry for a pair whose code "can be identified on
Wikidata from its code": the display name comes from the pair, the
coordinates from the external knowledge base (the oracle `wikidata`). -/
def Country.from_pair (wikidata : CountryPair → Rat × Rat)
    (pair : CountryPair) : Country :=
  ⟨pair.name, pair.code, wikidata pair⟩

/-- Modelled from the spec: `Country::from_pair_and_id` of the missing
`country` module builds the catalog entry for a pair that "must use a
hardcoded ID" on Wikidata; coordinates come from the by-id oracle. -/
def Country.from_pair_and_id (wikidataById : CountryPair → String → Rat × Rat)
    (pair : CountryPair) (id : String) : Country :=
  ⟨pair.name, pair.code, wikidataById pair id⟩

/-- `Vec::dedup_by_key` restarted below an already-kept element `last`:
an element is removed exactly when its key equals the key of the most
recently kept element. -/
def dedupByKeyFrom [DecidableEq β] (key : α → β) (last : α) :
    List α → List α
  | [] => []
  | b :: l =>
    if key b = key last then dedupByKeyFrom key last l
    else b :: dedupByKeyFrom key b l

/-- `Vec::dedup_by_key`: removes all but the first of each run of consecutive
elements resolving to the same key. -/
def dedupByKey [DecidableEq β] (key : α → β) : List α → List α
  | [] => []
  | a :: l => a :: dedupByKeyFrom key a l

/-- The `from_pair` closure of `get_country_list` (`src/geo/src/main.rs`
lines 189-201): the sentinel `"??"` pair becomes
`Country::new(code, name, (0.0, 0.0))` without consulting Wikidata; a
nonstandard code uses its hardcoded Wikidata ID; every other pair is resolved
on Wikidata by its code. -/
def from_pair_fn (nonstandard_countries : List (String × String))
    (wikidata : CountryPair → Rat × Rat)
    (wikidataById : CountryPair → String → Rat × Rat)
    (pair : CountryPair) : Country :=
  if pair.code = "??" then Country.new pair.code pair.name (0, 0)
  else
    match nonstandard_countries.lookup pair.code with
    | some id => Country.from_pair_and_id wikidataById pair id
    | none => Country.from_pair wikidata pair

/-- `get_country_list` (`src/geo/src/main.rs` lines 166-206) as a function of
the output lines of `call("location list-countries --show-name")`: skip empty
lines, parse each line into a `CountryPair` (`CountryPair::from_str` is in
the missing `country` module, so it is the parameter `fromStr`; a parse error
is only logged, i.e. the line is skipped), append `additional_countries`,
deduplicate by code with `Vec::dedup_by_key`, and resolve every pair to a
`Country`. -/
def get_country_list (fromStr : String → Except GeoError CountryPair)
    (wikidata : CountryPair → Rat × Rat)
    (wikidataById : CountryPair → String → Rat × Rat)
    (input : List String) (additional_countries : List CountryPair)
    (nonstandard_countries : List (String × String)) : List Country :=
  let parsed := input.filterMap
    (fun line =>
      if line.length = 0 then none else (fromStr line).toOption)
  let countries :=
    dedupByKey (fun c => c.code) (parsed ++ additional_countries)
  countries.map (from_pair_fn nonstandard_countries wikidata wikidataById)

/-- "Tor's additions to the database from libloc"
(`src/geo/src/main.rs` line 75). -/
def additional_countries : List CountryPair :=
  [⟨"??", "Unknown"⟩]

/-- "Country codes unique to libloc" with their hardcoded Wikidata IDs
(`src/geo/src/main.rs` lines 78-85). -/
def nonstandard_countries : List (String × String) :=
  [("EU", "Q458"), ("CS", "Q37024"), ("AP", "Q48")]

/-- An element whose key occurs nowhere earlier survives `dedup_by_key` when
appended at the end, whatever the most recently kept element is. -/
theorem mem_dedupByKeyFrom_append [DecidableEq β] (key : α → β) (b : α) :
    ∀ (l : List α) (last : α), (∀ x ∈ l, key x ≠ key b) →
      key last ≠ key b → b ∈ dedupByKeyFrom key last (l ++ [b])
  | [], last, _, hlast => by
    show b ∈ dedupByKeyFrom key last [b]
    unfold dedupByKeyFrom
    rw [if_neg (fun hh => hlast hh.symm)]
    exact List.mem_cons_self _ _
  | x :: l, last, hl, hlast => by
    show b ∈ dedupByKeyFrom key last (x :: (l ++ [b]))
    unfold dedupByKeyFrom
    by_cases hx : key x = key last
    · rw [if_pos hx]
      exact mem_dedupByKeyFrom_append key b l last
        (fun y hy => hl y (List.mem_cons_of_mem _ hy)) hlast
    · rw [if_neg hx]
      exact List.mem_cons_of_mem _
        (mem_dedupByKeyFrom_append key b l x
          (fun y hy => hl y (List.mem_cons_of_mem _ hy))
          (hl x (List.mem_cons_self _ _)))

/-- Top-level version of `mem_dedupByKeyFrom_append`. -/
theorem mem_dedupByKey_append [DecidableEq β] (key : α → β) (b : α) :
    ∀ l : List α, (∀ x ∈ l, key x ≠ key b) →
      b ∈ dedupByKey key (l ++ [b])
  | [], _ => by
    show b ∈ dedupByKey key [b]
    unfold dedupByKey dedupByKeyFrom
    exact List.mem_cons_self _ _
  | x :: l, h => by
    show b ∈ dedupByKey key (x :: (l ++ [b]))
    unfold dedupByKey
    exact List.mem_cons_of_mem _
      (mem_dedupByKeyFrom_append key b l x
        (fun y hy => h y (List.mem_cons_of_mem _ hy))
        (h x (List.mem_cons_self _ _)))

/-- After `dedup_by_key`, consecutive keys differ, all the way down from the
most recently kept element. -/
theorem dedupByKeyFrom_chain [DecidableEq β] {key : α → β} :
    ∀ (l : List α) (last : α),
      List.Chain (fun x y => key x ≠ key y) last (dedupByKeyFrom key last l)
  | [], _ => List.Chain.nil
  | b :: l, last => by
    unfold dedupByKeyFrom
    split
    · exact dedupByKeyFrom_chain l last
    · next h =>
        exact List.Chain.cons (fun hh => h hh.symm)
          (dedupByKeyFrom_chain l b)

/-- After `dedup_by_key`, no two consecutive elements share a key. -/
theorem dedupByKey_chain [DecidableEq β] {key : α → β} (l : List α) :
    List.Chain' (fun x y => key x ≠ key y) (dedupByKey key l) := by
  cases l with
  | nil => exact List.chain'_nil
  | cons a l => exact dedupByKeyFrom_chain l a

/-- Resolving a pair to a catalog entry never changes its country code. -/
theorem from_pair_fn_code (nonstandard : List (String × String))
    (wikidata : CountryPair → Rat × Rat)
    (wikidataById : CountryPair → String → Rat × Rat)
    (pair : CountryPair) :
    (from_pair_fn nonstandard wikidata wikidataById pair).code
      = pair.code := by
  unfold from_pair_fn
  split
  · rfl
  · split <;> rfl

/-- **C7**: with `main`'s inputs, the generated Country Catalog maps each
code to a display name and coordinates (`Country` entries), and it contains
the sentinel `"??"` entry, which `get_country_list` maps to the display name
`"Unknown"` with coordinates `(0.0, 0.0)` without consulting the Wikidata
oracles — provided, as in reality, that `location list-countries` itself
never emits the sentinel code. -/
theorem C7_unknown_sentinel (fromStr : String → Except GeoError CountryPair)
    (wikidata : CountryPair → Rat × Rat)
    (wikidataById : CountryPair → String → Rat × Rat)
    (input : List String)
    (h : ∀ (line : String) (p : CountryPair),
      fromStr line = Except.ok p → p.code ≠ "??") :
    Country.mk "Unknown" "??" (0, 0)
        ∈ get_country_list fromStr wikidata wikidataById input
          additional_countries nonstandard_countries ∧
      (∀ p : CountryPair, p.code = "??" →
        from_pair_fn nonstandard_countries wikidata wikidataById p
          = Country.new p.code p.name (0, 0)) := by
  constructor
  · have hpar : ∀ x ∈ input.filterMap
        (fun line =>
          if line.length = 0 then none else (fromStr line).toOption),
        (fun c : CountryPair => c.code) x
          ≠ (fun c : CountryPair => c.code) (⟨"??", "Unknown"⟩ : CountryPair) := by
      intro x hx
      obtain ⟨line, _, hsome⟩ := List.mem_filterMap.mp hx
      by_cases hz : line.length = 0
      · rw [if_pos hz] at hsome
        exact Option.noConfusion hsome
      · rw [if_neg hz] at hsome
        cases hfs : fromStr line with
        | error e =>
          rw [hfs] at hsome
          exact Option.noConfusion hsome
        | ok p =>
          rw [hfs] at hsome
          have hpx : p = x := by
            simpa [Except.toOption] using hsome
          exact hpx ▸ h line p hfs
    have hmem := mem_dedupByKey_append
      (fun c : CountryPair => c.code) (⟨"??", "Unknown"⟩ : CountryPair)
      (input.filterMap
        (fun line =>
          if line.length = 0 then none else (fromStr line).toOption))
      hpar
    exact List.mem_map_of_mem
      (from_pair_fn nonstandard_countries wikidata wikidataById) hmem
  · intro p hp
    unfold from_pair_fn
    rw [if_pos hp]

/-- A line parser that always fails (so the parsed list is empty). -/
def failFromStr : String → Except GeoError CountryPair :=
  fun _ => Except.error GeoError.urlSplit

/-- A Wikidata coordinate oracle returning a fixed location. -/
def demoWikidata : CountryPair → Rat × Rat :=
  fun _ => (4, 50)

/-- A by-id Wikidata coordinate oracle returning a fixed location. -/
def demoWikidataById : CountryPair → String → Rat × Rat :=
  fun _ _ => (9, 9)

/-- Witness for C7: on a concrete input whose only line fails to parse, the
catalog still contains the `"Unknown"` sentinel entry. -/
theorem C7_unknown_sentinel_witness :
    Country.mk "Unknown" "??" (0, 0)
      ∈ get_country_list failFromStr demoWikidata demoWikidataById
        ["GB United Kingdom"] additional_countries nonstandard_countries :=
  (C7_unknown_sentinel failFromStr demoWikidata demoWikidataById
    ["GB United Kingdom"]
    (fun line p hp => by simp [failFromStr] at hp)).1

/-- Pairs with an adjacent duplicate code and a non-adjacent repeat of a
code, as `additional_countries`. -/
def demoPairs : List CountryPair :=
  [⟨"US", "United States"⟩, ⟨"US", "United States of America"⟩,
    ⟨"CA", "Canada"⟩, ⟨"US", "USA again"⟩]

/-- **C10**: in the list returned by `get_country_list` no two consecutive
entries share a country code; the first entry of a run of equal codes is the
one kept (the adjacent `"US"` duplicate below is dropped in favour of the
first), while two entries with the same code that are not adjacent in the
pre-deduplication order are both retained — deduplication is applied to the
unsorted list. -/
theorem C10_dedup_consecutive_only
    (fromStr : String → Except GeoError CountryPair)
    (wikidata : CountryPair → Rat × Rat)
    (wikidataById : CountryPair → String → Rat × Rat)
    (input : List String) (additional : List CountryPair)
    (nonstandard : List (String × String)) :
    (get_country_list fromStr wikidata wikidataById input additional
        nonstandard).Chain' (fun x y => x.code ≠ y.code) ∧
      get_country_list failFromStr demoWikidata demoWikidataById []
          demoPairs nonstandard_countries
        = [⟨"United States", "US", (4, 50)⟩, ⟨"Canada", "CA", (4, 50)⟩,
            ⟨"USA again", "US", (4, 50)⟩] := by
  constructor
  · show (((dedupByKey (fun c : CountryPair => c.code)
        ((input.filterMap
          (fun line =>
            if line.length = 0 then none else (fromStr line).toOption))
          ++ additional))).map
        (from_pair_fn nonstandard wikidata wikidataById)).Chain'
      (fun x y => x.code ≠ y.code)
    refine (List.chain'_map _).mpr ?_
    refine (dedupByKey_chain _).imp ?_
    intro a b hab
    rw [from_pair_fn_code, from_pair_fn_code]
    exact hab
  · rfl

/-- Witness for C10 at a concrete run: the generated list has pairwise
distinct consecutive codes. -/
theorem C10_dedup_consecutive_only_witness :
    (get_country_list failFromStr demoWikidata demoWikidataById []
        demoPairs nonstandard_countries).Chain'
      (fun x y => x.code ≠ y.code) :=
  (C10_dedup_consecutive_only failFromStr demoWikidata demoWikidataById []
    demoPairs nonstandard_countries).1

end IpGeo
